import Mathlib

/-!
Formal model of the Resume Draft Reconciler of the seekr repository
(web/src/pages/ResumeBuilder.tsx and its hooks), with the Resume Store,
Setting Store and Chat Transcript Cache collaborators.

Modelling conventions:
* JSON document values (resume_json, pageData.resume) are modelled by the
  inductive `Json`; arrays and objects are cons-encoded so that structural
  (derived) equality is decidable.  Equality of `Json` values models equality
  of their JSON.stringify serialisations, which is the comparison the
  Reconciler performs; `Option Json` with `none` models a JS null slot.
* JS truthiness is modelled explicitly where the source relies on it
  (empty string falsy, number 0 falsy, NaN falsy via a failed parse).
* Remote calls are modelled as deterministic state transitions guarded by a
  Bool success flag; a false flag models the promise rejecting, in which case
  the try/catch of the source skips the remaining statements.
* The FastAPI backend is not part of src/, so the Resume Store and Setting
  Store server semantics are modelled from the spec (sections 4.2, 4.4, 6);
  each such definition is marked in its doc comment.
-/

namespace Seekr

/-- JSON values.  Arrays and objects are cons-encoded (`arrCons`/`objCons`)
so that `deriving DecidableEq` applies; `objNil` is the empty object literal
used as the create fallback in handleSaveWithName.  Structural equality of
`Json` models equality of JSON.stringify serialisations. -/
inductive Json where
  | null : Json
  | boolVal (b : Bool) : Json
  | num (n : Int) : Json
  | str (s : String) : Json
  | arrNil : Json
  | arrCons (head tail : Json) : Json
  | objNil : Json
  | objCons (key : String) (value tail : Json) : Json
deriving DecidableEq

/-- Chat message role (types/chat.ts ChatRole). -/
inductive ChatRole where
  | user : ChatRole
  | assistant : ChatRole
deriving DecidableEq

/-- Chat message (types/chat.ts ChatMessage): role, text content and an
optional resume snapshot attached to the message. -/
structure ChatMessage where
  role : ChatRole
  content : String
  resume : Option Json := none
deriving DecidableEq

/-- Persisted resume record (the Resume interface of ResumeBuilder.tsx /
useResumes.ts).  `updatedAt` models the numeric timestamp
`new Date(updated_at).getTime()` used by the list comparator. -/
structure ResumeRec where
  id : Int
  name : String
  resume_json : Json
  updatedAt : Int
deriving DecidableEq

/-- Modelled from the spec: state of the Resume Store backend (the FastAPI
server is absent from src/) — a list of persisted resumes plus the
auto-increment counter for server-assigned ids (spec 4.2, 6). -/
structure ResumeStore where
  resumes : List ResumeRec
  nextId : Int
deriving DecidableEq

/-- Modelled from the spec: GET /api/resumes/[id] — fetch a resume by id. -/
def ResumeStore.get (st : ResumeStore) (id : Int) : Option ResumeRec :=
  st.resumes.find? (fun r => decide (r.id = id))

/-- Modelled from the spec: POST /api/resumes — create a resume with a
server-assigned id and timestamp, returning the created record and the new
store state. -/
def ResumeStore.create (st : ResumeStore) (name : String) (content : Json)
    (now : Int) : ResumeRec × ResumeStore :=
  let r : ResumeRec := ⟨st.nextId, name, content, now⟩
  (r, ⟨st.resumes ++ [r], st.nextId + 1⟩)

/-- Body of PUT /api/resumes/[id] (UpdateResumeRequest in useResumes.ts):
both fields optional, only present fields are patched. -/
structure UpdateResumeRequest where
  name : Option String
  resume_json : Option Json
deriving DecidableEq

/-- Modelled from the spec: how the backend applies an update request to a
record — only the fields present in the body change, `updatedAt` is
server-assigned on every mutation. -/
def applyUpdate (data : UpdateResumeRequest) (now : Int) (r : ResumeRec) :
    ResumeRec :=
  { r with
    name := data.name.getD r.name
    resume_json := data.resume_json.getD r.resume_json
    updatedAt := now }

/-- Modelled from the spec: PUT /api/resumes/[id]. -/
def ResumeStore.update (st : ResumeStore) (id : Int) (data : UpdateResumeRequest)
    (now : Int) : ResumeStore :=
  { st with
    resumes := st.resumes.map (fun r => if r.id = id then applyUpdate data now r else r) }

/-- Modelled from the spec: DELETE /api/resumes/[id]. -/
def ResumeStore.remove (st : ResumeStore) (id : Int) : ResumeStore :=
  { st with resumes := st.resumes.filter (fun r => decide (r.id ≠ id)) }

/-- Setting Store state: named key-value records (useUserSettings.ts client
over the spec 4.4 backend). -/
structure SettingStore where
  settings : List (String × String)
deriving DecidableEq

/-- getSetting(name): the value of the named setting, `none` for the 404
"absent" result. -/
def SettingStore.get (s : SettingStore) (name : String) : Option String :=
  (s.settings.find? (fun kv => decide (kv.1 = name))).map (fun kv => kv.2)

/-- saveSetting: update the named setting when it exists, otherwise create
it (useUserSettings.ts saveSetting). -/
def SettingStore.set (s : SettingStore) (name value : String) : SettingStore :=
  if (s.settings.find? (fun kv => decide (kv.1 = name))).isSome then
    ⟨s.settings.map (fun kv => if kv.1 = name then (name, value) else kv)⟩
  else
    ⟨s.settings ++ [(name, value)]⟩

/-- deleteSetting(name): remove the named setting record
(useUserSettings.ts deleteSetting, backend DELETE /api/settings/[id]). -/
def SettingStore.remove (s : SettingStore) (name : String) : SettingStore :=
  ⟨s.settings.filter (fun kv => decide (kv.1 ≠ name))⟩

/-- Modelled from the spec: the backend PUT /api/resumes/[id]/set-default
endpoint called by useSetDefaultResume (useResumes.ts) — it updates the
DefaultPointer, i.e. the default_resume setting, to hold the given resume id
(spec 4.1 SetDefault, 3 DefaultPointer). -/
def setDefaultResume (s : SettingStore) (id : Int) : SettingStore :=
  s.set "default_resume" (toString id)

/-- Chat Transcript Cache: localStorage entries keyed by resume id
(ResumeBuilder.tsx CHAT_STORAGE_PREFIX helpers). -/
structure ChatCache where
  entries : List (Int × List ChatMessage)
deriving DecidableEq

/-- loadChatFromLocalStorage: empty list when absent, never throws. -/
def ChatCache.load (c : ChatCache) (id : Int) : List ChatMessage :=
  match c.entries.find? (fun e => decide (e.1 = id)) with
  | some e => e.2
  | none => []

/-- saveChatToLocalStorage: upsert the transcript for a resume id. -/
def ChatCache.save (c : ChatCache) (id : Int) (msgs : List ChatMessage) :
    ChatCache :=
  if (c.entries.find? (fun e => decide (e.1 = id))).isSome then
    ⟨c.entries.map (fun e => if e.1 = id then (id, msgs) else e)⟩
  else
    ⟨c.entries ++ [(id, msgs)]⟩

/-- deleteChatFromLocalStorage. -/
def ChatCache.remove (c : ChatCache) (id : Int) : ChatCache :=
  ⟨c.entries.filter (fun e => decide (e.1 ≠ id))⟩

/-- Longest leading run of decimal digits. -/
def digitsPrefix (cs : List Char) : List Char :=
  cs.takeWhile (fun c => c.isDigit)

/-- Decimal value of a digit list. -/
def digitsVal (cs : List Char) : Nat :=
  cs.foldl (fun a c => 10 * a + (c.toNat - 48)) 0

/-- Model of JavaScript parseInt(s, 10): skip leading whitespace, optional
sign, then read the longest run of decimal digits; `none` models NaN (no
digit found). -/
def parseIntJs (s : String) : Option Int :=
  let cs := s.data.dropWhile (fun c => c.isWhitespace)
  match cs with
  | '-' :: rest =>
    if digitsPrefix rest = [] then none
    else some (-(digitsVal (digitsPrefix rest) : Int))
  | '+' :: rest =>
    if digitsPrefix rest = [] then none
    else some ((digitsVal (digitsPrefix rest) : Int))
  | other =>
    if digitsPrefix other = [] then none
    else some ((digitsVal (digitsPrefix other) : Int))

/-- The recurring idiom `setting?.value ? parseInt(setting.value, 10) : null`
(ResumeBuilder.tsx initialize effect and handleDeleteResume, ResumeList.tsx):
an absent setting or an empty-string value (falsy) gives null, otherwise the
parse result, where a NaN parse is `none` as well downstream of the
truthiness checks performed on it. -/
def parsedSettingId (v : Option String) : Option Int :=
  match v with
  | some s => if s = "" then none else parseIntJs s
  | none => none

/-- ResumeBuilder component state: the useState hooks of ResumeBuilder.tsx
together with the query results it reads.  `selectedResume` and the pageData
fields mirror the hooks; `selectedResumeData` is the last-resolved
useResume(selectedResume) record (none while unresolved or disabled);
`urlParam` is the value of the selectedResume navigational query parameter
(none when absent). -/
structure BuilderState where
  selectedResume : Option Int
  pageResume : Option Json
  chatMessages : List ChatMessage
  hasInitialized : Bool
  selectedResumeData : Option ResumeRec
  urlParam : Option String
deriving DecidableEq

/-- isEdited (ResumeBuilder.tsx 173-187): true when a new resume has data
(selectedResume undefined, pageData.resume non-null), or when an existing
resume is selected, its fetch has resolved, pageData.resume is non-null and
the two JSON serialisations differ; false in every remaining case. -/
def isEdited (s : BuilderState) : Bool :=
  match s.selectedResume, s.pageResume, s.selectedResumeData with
  | none, some _, _ => true
  | some _, some p, some d => decide (p ≠ d.resume_json)
  | _, _, _ => false

/-- The fall-back part of the initialize effect (ResumeBuilder.tsx 140-149):
select the default resume id if the parsed setting value is truthy (neither
NaN nor 0), then mark initialization done. -/
def initializeDefault (s : BuilderState) (defaultSettingValue : Option String) :
    BuilderState :=
  match parsedSettingId defaultSettingValue with
  | some n =>
    if n ≠ 0 then { s with selectedResume := some n, hasInitialized := true }
    else { s with hasInitialized := true }
  | none => { s with hasInitialized := true }

/-- One invocation of the initialize effect (ResumeBuilder.tsx 124-151):
no-op once hasInitialized or while the initial queries load; else a
truthy (non-empty) url parameter that parses to a non-NaN integer wins and
returns early; otherwise fall back to the default-resume setting. -/
def initializeStep (s : BuilderState) (isInitialLoading : Bool)
    (defaultSettingValue : Option String) : BuilderState :=
  if s.hasInitialized || isInitialLoading then s
  else
    match s.urlParam with
    | some u =>
      if u ≠ "" then
        match parseIntJs u with
        | some n => { s with selectedResume := some n, hasInitialized := true }
        | none => initializeDefault s defaultSettingValue
      else initializeDefault s defaultSettingValue
    | none => initializeDefault s defaultSettingValue

/-- The resolved selection of the url parameter in one initialize run:
`some n` exactly when the parameter is present, non-empty and parses. -/
def urlSelection (s : BuilderState) : Option Int :=
  match s.urlParam with
  | some u => if u = "" then none else parseIntJs u
  | none => none

/-- Combined world state: component plus the three collaborator stores. -/
structure World where
  builder : BuilderState
  store : ResumeStore
  settings : SettingStore
  chatCache : ChatCache
deriving DecidableEq

/-- handleSelectResume (ResumeBuilder.tsx 222-229): select the resume and
reflect its id in the url query parameter; the useResume query key changes,
so its data is unresolved until the fetch completes. -/
def handleSelectResume (w : World) (r : ResumeRec) : World :=
  { w with
    builder := { w.builder with
      selectedResume := some r.id
      selectedResumeData := none
      urlParam := some (toString r.id) } }

/-- Resolution of the useResume fetch followed by the load-selected-resume
effect (ResumeBuilder.tsx 157-165): when a truthy resume id is selected
(useResume is enabled only for truthy ids) and the store holds it, the
fetched record becomes selectedResumeData and pageData is set from it and
from the chat cache. -/
def resolveSelectedResume (w : World) : World :=
  match w.builder.selectedResume with
  | some id =>
    if id ≠ 0 then
      match w.store.get id with
      | some r =>
        { w with
          builder := { w.builder with
            selectedResumeData := some r
            chatMessages := w.chatCache.load id
            pageResume := some r.resume_json } }
      | none => w
    else w
  | none => w

/-- handleNewResume (ResumeBuilder.tsx 252-263): clear selection, draft and
transcript, and drop the url query parameter. -/
def handleNewResume (s : BuilderState) : BuilderState :=
  { s with
    selectedResume := none
    pageResume := none
    chatMessages := []
    selectedResumeData := none
    urlParam := none }

/-- handleResumeUpdate (ResumeBuilder.tsx 192-197), the onResumeUpdate
callback invoked when the AI chat returns a resume: it replaces
pageData.resume unconditionally — no guard compares the selection at issue
time with the current one. -/
def handleResumeUpdate (s : BuilderState) (resume : Json) : BuilderState :=
  { s with pageResume := some resume }

/-- handleSaveClick (ResumeBuilder.tsx 277-298): no-op without draft content;
with a truthy selected id, a content-only update plus transcript save, where
a rejected update (ok = false) leaves everything unchanged; with no truthy
selection it only opens the name modal (modal state not modelled). -/
def handleSaveClick (w : World) (ok : Bool) (now : Int) : World :=
  match w.builder.pageResume, w.builder.selectedResume with
  | none, _ => w
  | some p, some id =>
    if id ≠ 0 then
      if ok then
        { w with
          store := w.store.update id ⟨none, some p⟩ now
          chatCache := w.chatCache.save id w.builder.chatMessages }
      else w
    else w
  | some _, none => w

/-- Tail of the create branch of handleSaveWithName after a successful
create (and default-setting step): transcript saved under the new id, the
new resume selected (fresh useResume key, data unresolved), url updated. -/
def finishCreate (w : World) (r : ResumeRec) : World :=
  { w with
    chatCache := w.chatCache.save r.id w.builder.chatMessages
    builder := { w.builder with
      selectedResume := some r.id
      selectedResumeData := none
      urlParam := some (toString r.id) } }

/-- handleSaveWithName (ResumeBuilder.tsx 303-351).  With a rename target it
patches only the name; otherwise it creates a resume from the draft content
(empty object fallback for a null draft), sets it as default when the cached
resume list was empty before the create, saves the transcript and selects
the new resume.  `okRemote` models the create/update call succeeding,
`okSetDefault` the set-default call; a rejected call makes the catch block
skip every remaining statement. -/
def handleSaveWithName (w : World) (renameTarget : Option ResumeRec)
    (name : String) (okRemote okSetDefault : Bool) (now : Int) : World :=
  match renameTarget with
  | some target =>
    if okRemote then
      { w with store := w.store.update target.id ⟨some name, none⟩ now }
    else w
  | none =>
    if okRemote then
      let created := w.store.create name (w.builder.pageResume.getD Json.objNil) now
      let w1 := { w with store := created.2 }
      if w.store.resumes.isEmpty then
        if okSetDefault then
          finishCreate { w1 with settings := setDefaultResume w1.settings created.1.id }
            created.1
        else w1
      else finishCreate w1 created.1
    else w

/-- Tail of handleDeleteResume after the remote deletes succeeded: drop the
cached transcript, clear selection, draft, transcript and url parameter. -/
def finishDelete (w : World) (r : ResumeRec) : World :=
  { w with
    chatCache := w.chatCache.remove r.id
    builder := { w.builder with
      selectedResume := none
      pageResume := none
      chatMessages := []
      selectedResumeData := none
      urlParam := none } }

/-- handleDeleteResume (ResumeBuilder.tsx 358-404), after the user confirmed:
parse the default-resume setting, delete the resume (okDelete models the
call succeeding; a rejection skips everything), then, only if the deleted id
was the default, delete the default_resume setting (okClear models that call
succeeding; its rejection skips the remaining statements), then clear the
local state. -/
def handleDeleteResume (w : World) (r : ResumeRec) (okDelete okClear : Bool) :
    World :=
  let defaultResumeId := parsedSettingId (w.settings.get "default_resume")
  let isDefaultResume := defaultResumeId = some r.id
  if okDelete then
    let w1 := { w with store := w.store.remove r.id }
    if isDefaultResume then
      if okClear then
        finishDelete { w1 with settings := w1.settings.remove "default_resume" } r
      else w1
    else finishDelete w1 r
  else w

/-- Comparator of sortedResumes (ResumeList.tsx 60-67): the default resume
compares below everything, the rest by updated_at descending (timestamps
modelled by the numeric `updatedAt`). -/
def resumeCompare (defaultId : Option Int) (a b : ResumeRec) : Int :=
  if defaultId = some a.id then -1
  else if defaultId = some b.id then 1
  else b.updatedAt - a.updatedAt

/-- sortedResumes (ResumeList.tsx 57-68): `[...resumes].sort(cmp)`, modelled
as a sort with respect to the comparator's non-positive relation — a correct
Array.prototype.sort result for a consistent comparator is exactly a sorted
permutation; insertion sort is the representative implementation. -/
def sortedResumes (defaultId : Option Int) (resumes : List ResumeRec) :
    List ResumeRec :=
  List.insertionSort (fun a b => resumeCompare defaultId a b ≤ 0) resumes

end Seekr

namespace Seekr

/-! ### Helper lemmas about the stores -/

theorem SettingStore.get_set (s : SettingStore) (name v : String) :
    (s.set name v).get name = some v := by
  unfold SettingStore.set SettingStore.get
  by_cases h : (s.settings.find? (fun kv => decide (kv.1 = name))).isSome
  · rw [if_pos h]
    obtain ⟨kv, hkv⟩ := Option.isSome_iff_exists.mp h
    have hp := List.find?_some hkv
    have h1 : kv.1 = name := by simpa using hp
    have hfg : ((fun kv : String × String => decide (kv.1 = name)) ∘
        (fun kv : String × String => if kv.1 = name then (name, v) else kv)) =
        (fun kv : String × String => decide (kv.1 = name)) := by
      funext x
      by_cases hx : x.1 = name <;> simp [hx]
    rw [List.find?_map, hfg, hkv]
    simp [h1]
  · rw [if_neg h]
    have hnone : s.settings.find? (fun kv => decide (kv.1 = name)) = none := by
      cases hfind : s.settings.find? (fun kv => decide (kv.1 = name)) with
      | none => rfl
      | some kv => rw [hfind] at h; simp at h
    simp [List.find?_append, hnone, List.find?]

theorem SettingStore.get_remove (s : SettingStore) (name : String) :
    (s.remove name).get name = none := by
  unfold SettingStore.remove SettingStore.get
  have hnone : (s.settings.filter (fun kv => decide (kv.1 ≠ name))).find?
      (fun kv => decide (kv.1 = name)) = none := by
    rw [List.find?_eq_none]
    intro x hx hpx
    rw [List.mem_filter] at hx
    have h1 : x.1 ≠ name := of_decide_eq_true hx.2
    exact h1 (of_decide_eq_true hpx)
  rw [hnone]
  rfl

/-- isEdited reads the fetched record only through its resume_json. -/
theorem isEdited_congr_fetched (s : BuilderState) (d d' : Option ResumeRec)
    (h : d.map ResumeRec.resume_json = d'.map ResumeRec.resume_json) :
    isEdited { s with selectedResumeData := d } =
      isEdited { s with selectedResumeData := d' } := by
  cases d with
  | none =>
    cases d' with
    | none => rfl
    | some y => simp at h
  | some x =>
    cases d' with
    | none => simp at h
    | some y =>
      have hxy : x.resume_json = y.resume_json := by simpa using h
      unfold isEdited
      cases s.selectedResume <;> cases s.pageResume <;> simp [hxy]

/-! ### Claim theorems -/

/-- Claim C1, counterexample to the claimed characterisation: a resume is
selected, its fetched content is the empty object, and the draft content is
null; null is not deep-equal to the fetched content, so the claim demands a
true dirty flag, but isEdited computes false. -/
theorem isEdited_null_draft_not_dirty :
    isEdited ⟨some 1, none, [], true, some ⟨1, "A", Json.objNil, 0⟩, none⟩ = false ∧
    (none : Option Json) ≠ some Json.objNil := by
  exact ⟨rfl, by simp⟩

/-- Claim C1 (amended): isEdited is true iff either no resume is selected and
the draft content is non-null, or a resume is selected, its fetch has
resolved, the draft content is non-null and differs structurally from the
fetched content; in every other state — in particular a null draft beside a
resolved fetch — it is false. -/
theorem isEdited_iff (s : BuilderState) :
    isEdited s = true ↔
      (s.selectedResume = none ∧ s.pageResume ≠ none) ∨
      (s.selectedResume ≠ none ∧ ∃ p d, s.pageResume = some p ∧
        s.selectedResumeData = some d ∧ p ≠ d.resume_json) := by
  rcases s with ⟨sel, page, msgs, init, data, url⟩
  cases sel <;> cases page <;> cases data <;> simp [isEdited]

/-- Claim C4: a rejected Resume Store call leaves the whole world unchanged:
a failed update in handleSaveClick and a failed create (or rename) in
handleSaveWithName return the state exactly as it was — in particular the
draft content, the transcript and the (possibly undefined) selection survive
for a retry. -/
theorem save_failure_leaves_state (w : World) (renameTarget : Option ResumeRec)
    (name : String) (okSetDefault : Bool) (now : Int) :
    handleSaveClick w false now = w ∧
    handleSaveWithName w renameTarget name false okSetDefault now = w := by
  constructor
  · unfold handleSaveClick
    rcases w.builder.pageResume with _ | p <;>
      rcases w.builder.selectedResume with _ | id <;> simp
  · unfold handleSaveWithName
    rcases renameTarget with _ | t <;> simp

/-- Claim C7, the code evaluated at the failing input: an AI call is
outstanding for an unselected (new-draft) context holding tailored content;
handleNewResume resets the draft content to null; when the response then
arrives, handleResumeUpdate — which has no stale-response guard keyed by the
selection at issue time — installs the AI content into the fresh draft, so
the new draft context is affected. -/
theorem staleAiResponse_applied_to_new_draft :
    (handleNewResume
      ⟨none, some (Json.str "tailored"), [], true, none, none⟩).pageResume
      = none ∧
    (handleResumeUpdate
      (handleNewResume ⟨none, some (Json.str "tailored"), [], true, none, none⟩)
      (Json.str "ai")).pageResume = some (Json.str "ai") := by
  exact ⟨rfl, rfl⟩

/-- Claim C5: SaveAsNew with a successful create sets the DefaultPointer to
the created resume's id exactly when the store held zero resumes before the
create, and leaves the settings untouched otherwise; setting the pointer
stores the new id under the default_resume name. -/
theorem saveAsNew_first_resume_default (w : World) (name : String) (now : Int) :
    ((handleSaveWithName w none name true true now).settings =
      if w.store.resumes.isEmpty then setDefaultResume w.settings w.store.nextId
      else w.settings) ∧
    (∀ (s : SettingStore) (id : Int),
      (setDefaultResume s id).get "default_resume" = some (toString id)) := by
  constructor
  · unfold handleSaveWithName
    by_cases he : w.store.resumes.isEmpty <;>
      simp [he, finishCreate, ResumeStore.create]
  · intro s id
    exact SettingStore.get_set s "default_resume" (toString id)

/-- Claim C10: after a successful delete — including, when the deleted
resume was the default, a successful pointer-clear — the builder transitions
to the new-draft end-state: selection undefined, draft content null,
transcript empty, url parameter cleared; this happens regardless of whether
the deleted resume was the selected one. -/
theorem delete_clears_builder (w : World) (r : ResumeRec) (okClear : Bool)
    (h : parsedSettingId (w.settings.get "default_resume") = some r.id →
      okClear = true) :
    (handleDeleteResume w r true okClear).builder.selectedResume = none ∧
    (handleDeleteResume w r true okClear).builder.pageResume = none ∧
    (handleDeleteResume w r true okClear).builder.chatMessages = [] ∧
    (handleDeleteResume w r true okClear).builder.urlParam = none := by
  unfold handleDeleteResume
  by_cases hd : parsedSettingId (w.settings.get "default_resume") = some r.id
  · rw [h hd]
    simp [hd, finishDelete]
  · simp [hd, finishDelete]

/-- Claim C10 witness: a concrete non-default resume is deleted while a
different resume is selected; the builder still resets to the new-draft
end-state. -/
theorem delete_clears_builder_witness :
    (handleDeleteResume
      ⟨⟨some 7, some Json.objNil, [], true, none, some "7"⟩,
        ⟨[⟨3, "B", Json.objNil, 0⟩], 4⟩, ⟨[]⟩, ⟨[]⟩⟩
      ⟨3, "B", Json.objNil, 0⟩ true false).builder.selectedResume = none ∧
    (handleDeleteResume
      ⟨⟨some 7, some Json.objNil, [], true, none, some "7"⟩,
        ⟨[⟨3, "B", Json.objNil, 0⟩], 4⟩, ⟨[]⟩, ⟨[]⟩⟩
      ⟨3, "B", Json.objNil, 0⟩ true false).builder.pageResume = none ∧
    (handleDeleteResume
      ⟨⟨some 7, some Json.objNil, [], true, none, some "7"⟩,
        ⟨[⟨3, "B", Json.objNil, 0⟩], 4⟩, ⟨[]⟩, ⟨[]⟩⟩
      ⟨3, "B", Json.objNil, 0⟩ true false).builder.chatMessages = [] ∧
    (handleDeleteResume
      ⟨⟨some 7, some Json.objNil, [], true, none, some "7"⟩,
        ⟨[⟨3, "B", Json.objNil, 0⟩], 4⟩, ⟨[]⟩, ⟨[]⟩⟩
      ⟨3, "B", Json.objNil, 0⟩ true false).builder.urlParam = none := by
  exact delete_clears_builder _ _ _ (by decide)

/-- Claim C6: deleting the resume the DefaultPointer refers to clears the
pointer; the clear is issued only after a successful store delete — a
rejected delete leaves the entire world, pointer included, unchanged — and a
subsequent initialize run on a fresh page with no url parameter leaves the
selection undefined. -/
theorem delete_default_clears_pointer (w : World) (r : ResumeRec) (v : String)
    (hv : w.settings.get "default_resume" = some v)
    (hparse : parseIntJs v = some r.id) :
    (handleDeleteResume w r true true).settings.get "default_resume" = none ∧
    (∀ okClear, handleDeleteResume w r false okClear = w) ∧
    (initializeStep
        { selectedResume := none, pageResume := none, chatMessages := [],
          hasInitialized := false, selectedResumeData := none, urlParam := none }
        false
        ((handleDeleteResume w r true true).settings.get "default_resume")).selectedResume
      = none := by
  have hvne : v ≠ "" := by
    intro hv0
    rw [hv0] at hparse
    have hnone : parseIntJs "" = none := by decide
    rw [hnone] at hparse
    exact Option.noConfusion hparse
  have hd : parsedSettingId (w.settings.get "default_resume") = some r.id := by
    rw [hv]
    simp [parsedSettingId, hvne, hparse]
  have h1 : (handleDeleteResume w r true true).settings.get "default_resume"
      = none := by
    unfold handleDeleteResume
    simp [hd, finishDelete, SettingStore.get_remove]
  refine ⟨h1, ?_, ?_⟩
  · intro okClear
    unfold handleDeleteResume
    simp
  · rw [h1]
    decide

/-- Claim C6 witness: concrete world whose DefaultPointer holds "5" and a
resume with id 5 is deleted. -/
theorem delete_default_clears_pointer_witness :
    (handleDeleteResume
      ⟨⟨some 5, none, [], true, none, none⟩, ⟨[⟨5, "A", Json.objNil, 0⟩], 6⟩,
        ⟨[("default_resume", "5")]⟩, ⟨[]⟩⟩
      ⟨5, "A", Json.objNil, 0⟩ true true).settings.get "default_resume" = none ∧
    (∀ okClear, handleDeleteResume
      ⟨⟨some 5, none, [], true, none, none⟩, ⟨[⟨5, "A", Json.objNil, 0⟩], 6⟩,
        ⟨[("default_resume", "5")]⟩, ⟨[]⟩⟩
      ⟨5, "A", Json.objNil, 0⟩ false okClear =
      ⟨⟨some 5, none, [], true, none, none⟩, ⟨[⟨5, "A", Json.objNil, 0⟩], 6⟩,
        ⟨[("default_resume", "5")]⟩, ⟨[]⟩⟩) ∧
    (initializeStep ⟨none, none, [], false, none, none⟩ false
        ((handleDeleteResume
          ⟨⟨some 5, none, [], true, none, none⟩, ⟨[⟨5, "A", Json.objNil, 0⟩], 6⟩,
            ⟨[("default_resume", "5")]⟩, ⟨[]⟩⟩
          ⟨5, "A", Json.objNil, 0⟩ true true).settings.get "default_resume")).selectedResume
      = none := by
  exact delete_default_clears_pointer _ _ "5" (by decide) (by decide)


/-! ### Claim C3 -/

/-- One uninitialized initialize run in closed form: the url-parameter
selection wins when it resolves, else the default-setting branch runs. -/
theorem initializeStep_uninitialized (s : BuilderState) (dv : Option String)
    (h : s.hasInitialized = false) :
    initializeStep s false dv =
      (match urlSelection s with
       | some n => { s with selectedResume := some n, hasInitialized := true }
       | none => initializeDefault s dv) := by
  unfold initializeStep urlSelection
  rw [h]
  rcases hu : s.urlParam with _ | u
  · simp
  · by_cases hue : u = ""
    · simp [hue]
    · rcases hp : parseIntJs u with _ | n <;> simp [hue, hp]

/-- Claim C3, counterexample: a DefaultPointer exists and its value is "0"
(so its resume id is the integer 0), there is no url parameter, yet
initialize leaves the selection undefined, because the parsed id 0 is falsy
in the source's truthiness check. -/
theorem initialize_default_zero_ignored :
    (some "0" : Option String) ≠ none ∧
    parseIntJs "0" = some 0 ∧
    (initializeStep ⟨none, none, [], false, none, none⟩ false
        (some "0")).selectedResume = none ∧
    (initializeStep ⟨none, none, [], false, none, none⟩ false
        (some "0")).hasInitialized = true := by
  refine ⟨by simp, by decide, by decide, by decide⟩

/-- Claim C3 (amended): an initialize run on an uninitialized state marks
initialization done and selects, in order of precedence: the integer parsed
from a non-empty url parameter; else the id parsed from an existing
DefaultPointer when that parse is truthy (neither NaN nor 0 — a pointer
value of "0" or one that fails to parse is ignored); else the selection is
left untouched.  When the url parameter resolves the DefaultPointer is not
consulted, and once initialized the effect never changes the state again. -/
theorem initialize_precedence (s : BuilderState) (dv : Option String)
    (h : s.hasInitialized = false) :
    ((initializeStep s false dv).hasInitialized = true ∧
      (initializeStep s false dv).selectedResume =
        (match urlSelection s with
         | some n => some n
         | none =>
           match parsedSettingId dv with
           | some n => if n ≠ 0 then some n else s.selectedResume
           | none => s.selectedResume)) ∧
    (∀ n, urlSelection s = some n →
      ∀ dv' : Option String,
        initializeStep s false dv' = initializeStep s false dv) ∧
    (∀ (t : BuilderState) (b : Bool) (dv' : Option String),
      t.hasInitialized = true → initializeStep t b dv' = t) := by
  refine ⟨?_, ?_, ?_⟩
  · rw [initializeStep_uninitialized s dv h]
    rcases hu : urlSelection s with _ | n
    · unfold initializeDefault
      rcases hp : parsedSettingId dv with _ | m
      · simp
      · by_cases hm : m = 0 <;> simp [hm]
    · simp
  · intro n hn dv'
    rw [initializeStep_uninitialized s dv h, initializeStep_uninitialized s dv' h,
      hn]
  · intro t b dv' ht
    unfold initializeStep
    rw [ht]
    simp

/-- Claim C3 witness: a url parameter "7" beats the default setting "2". -/
theorem initialize_precedence_witness :
    ((initializeStep ⟨none, none, [], false, none, some "7"⟩ false
        (some "2")).hasInitialized = true ∧
      (initializeStep ⟨none, none, [], false, none, some "7"⟩ false
        (some "2")).selectedResume =
        (match urlSelection ⟨none, none, [], false, none, some "7"⟩ with
         | some n => some n
         | none =>
           match parsedSettingId (some "2") with
           | some n =>
             if n ≠ 0 then some n
             else (⟨none, none, [], false, none, some "7"⟩ : BuilderState).selectedResume
           | none => (⟨none, none, [], false, none, some "7"⟩ : BuilderState).selectedResume)) ∧
    (∀ n, urlSelection ⟨none, none, [], false, none, some "7"⟩ = some n →
      ∀ dv' : Option String,
        initializeStep ⟨none, none, [], false, none, some "7"⟩ false dv' =
          initializeStep ⟨none, none, [], false, none, some "7"⟩ false (some "2")) ∧
    (∀ (t : BuilderState) (b : Bool) (dv' : Option String),
      t.hasInitialized = true → initializeStep t b dv' = t) :=
  initialize_precedence ⟨none, none, [], false, none, some "7"⟩ (some "2") rfl

/-! ### Claim C2 -/

/-- After selecting a resume present in the store (truthy id) and the fetch
resolving, the draft content equals the stored content and the dirty flag is
clear. -/
theorem resolve_after_select (w : World) (r : ResumeRec)
    (hid : r.id ≠ 0) (hget : w.store.get r.id = some r) :
    (resolveSelectedResume (handleSelectResume w r)).builder.pageResume =
      some r.resume_json ∧
    isEdited (resolveSelectedResume (handleSelectResume w r)).builder = false := by
  unfold resolveSelectedResume handleSelectResume
  simp [hid, hget, isEdited]

/-- Claim C2: with a non-null draft content and a non-empty name, SaveAsNew
followed by selecting the resume returned by the create and the resolution
of its fetch yields a draft whose content equals what was saved, and the
dirty flag is false immediately after the round-trip. -/
theorem saveAsNew_roundtrip (w : World) (name : String) (c : Json) (now : Int)
    (hname : name ≠ "")
    (hc : w.builder.pageResume = some c)
    (hid : w.store.nextId ≠ 0)
    (hfresh : ∀ x ∈ w.store.resumes, x.id ≠ w.store.nextId) :
    (resolveSelectedResume (handleSelectResume
        (handleSaveWithName w none name true true now)
        (w.store.create name c now).1)).builder.pageResume = some c ∧
    isEdited (resolveSelectedResume (handleSelectResume
        (handleSaveWithName w none name true true now)
        (w.store.create name c now).1)).builder = false := by
  have hstore : (handleSaveWithName w none name true true now).store =
      ⟨w.store.resumes ++ [⟨w.store.nextId, name, c, now⟩], w.store.nextId + 1⟩ := by
    unfold handleSaveWithName
    by_cases he : w.store.resumes.isEmpty <;>
      simp [he, finishCreate, ResumeStore.create, hc]
  have hget : (handleSaveWithName w none name true true now).store.get
      (⟨w.store.nextId, name, c, now⟩ : ResumeRec).id =
      some ⟨w.store.nextId, name, c, now⟩ := by
    rw [hstore]
    unfold ResumeStore.get
    have hnone : w.store.resumes.find?
        (fun x => decide (x.id = w.store.nextId)) = none := by
      rw [List.find?_eq_none]
      intro x hx hpx
      exact hfresh x hx (by simpa using hpx)
    rw [List.find?_append, hnone]
    simp
  exact resolve_after_select (handleSaveWithName w none name true true now)
    ⟨w.store.nextId, name, c, now⟩ hid hget

/-- Claim C2 witness: empty store, draft content the empty object, name
"A". -/
theorem saveAsNew_roundtrip_witness :
    (resolveSelectedResume (handleSelectResume
        (handleSaveWithName
          ⟨⟨none, some Json.objNil, [], true, none, none⟩, ⟨[], 1⟩, ⟨[]⟩, ⟨[]⟩⟩
          none "A" true true 0)
        ((⟨⟨none, some Json.objNil, [], true, none, none⟩, ⟨[], 1⟩, ⟨[]⟩, ⟨[]⟩⟩ :
            World).store.create "A" Json.objNil 0).1)).builder.pageResume =
      some Json.objNil ∧
    isEdited (resolveSelectedResume (handleSelectResume
        (handleSaveWithName
          ⟨⟨none, some Json.objNil, [], true, none, none⟩, ⟨[], 1⟩, ⟨[]⟩, ⟨[]⟩⟩
          none "A" true true 0)
        ((⟨⟨none, some Json.objNil, [], true, none, none⟩, ⟨[], 1⟩, ⟨[]⟩, ⟨[]⟩⟩ :
            World).store.create "A" Json.objNil 0).1)).builder = false :=
  saveAsNew_roundtrip
    ⟨⟨none, some Json.objNil, [], true, none, none⟩, ⟨[], 1⟩, ⟨[]⟩, ⟨[]⟩⟩
    "A" Json.objNil 0 (by decide) rfl (by decide) (by simp)

/-! ### Claim C9 -/

/-- A name-only update request leaves every content in the list untouched
(pointwise on the result of find?). -/
theorem find?_map_update_json (id0 : Int) (name : String) (now : Int) (id : Int) :
    ∀ l : List ResumeRec,
      ((l.map (fun r => if r.id = id0 then applyUpdate ⟨some name, none⟩ now r
          else r)).find? (fun r => decide (r.id = id))).map ResumeRec.resume_json =
        (l.find? (fun r => decide (r.id = id))).map ResumeRec.resume_json
  | [] => rfl
  | r :: t => by
    have hgid : (if r.id = id0 then applyUpdate ⟨some name, none⟩ now r else r).id
        = r.id := by
      by_cases hr : r.id = id0 <;> simp [hr, applyUpdate]
    have hgjson :
        (if r.id = id0 then applyUpdate ⟨some name, none⟩ now r else r).resume_json
        = r.resume_json := by
      by_cases hr : r.id = id0 <;> simp [hr, applyUpdate]
    by_cases hp : r.id = id
    · rw [List.map_cons,
        List.find?_cons_of_pos _ (by rw [hgid, hp]; simp),
        List.find?_cons_of_pos _ (by rw [hp]; simp)]
      simp [hgjson]
    · rw [List.map_cons,
        List.find?_cons_of_neg _ (by rw [hgid]; simp [hp]),
        List.find?_cons_of_neg _ (by simp [hp])]
      exact find?_map_update_json id0 name now id t

/-- Claim C9: the rename branch sends a name-only patch to the Resume Store,
leaves the component state untouched, preserves the stored content of every
resume, and the dirty flag is the same before and after — also under any
refetch of the selected record that preserves its content, since isEdited
reads the fetched record only through its content. -/
theorem rename_patches_only_name (w : World) (target : ResumeRec)
    (name : String) (now : Int) (hname : name ≠ "") :
    (handleSaveWithName w (some target) name true true now).store =
      w.store.update target.id ⟨some name, none⟩ now ∧
    (handleSaveWithName w (some target) name true true now).builder = w.builder ∧
    (∀ id : Int,
      ((handleSaveWithName w (some target) name true true now).store.get id).map
        ResumeRec.resume_json = (w.store.get id).map ResumeRec.resume_json) ∧
    isEdited (handleSaveWithName w (some target) name true true now).builder =
      isEdited w.builder ∧
    (∀ d : Option ResumeRec,
      d.map ResumeRec.resume_json =
        w.builder.selectedResumeData.map ResumeRec.resume_json →
      isEdited { w.builder with selectedResumeData := d } = isEdited w.builder) := by
  have hsw : handleSaveWithName w (some target) name true true now =
      { w with store := w.store.update target.id ⟨some name, none⟩ now } := by
    unfold handleSaveWithName
    simp
  refine ⟨by rw [hsw], by rw [hsw], ?_, by rw [hsw], ?_⟩
  · intro id
    rw [hsw]
    show ((w.store.update target.id ⟨some name, none⟩ now).get id).map _ = _
    unfold ResumeStore.update ResumeStore.get
    exact find?_map_update_json target.id name now id w.store.resumes
  · intro d hd
    exact (isEdited_congr_fetched w.builder d w.builder.selectedResumeData hd).trans
      rfl

/-- Claim C9 witness: renaming the selected resume, whose fetched and draft
contents coincide. -/
theorem rename_patches_only_name_witness :
    (handleSaveWithName
        ⟨⟨some 2, some Json.objNil, [], true, some ⟨2, "Old", Json.objNil, 0⟩, some "2"⟩,
          ⟨[⟨2, "Old", Json.objNil, 0⟩], 3⟩, ⟨[]⟩, ⟨[]⟩⟩
        (some ⟨2, "Old", Json.objNil, 0⟩) "New" true true 1).store =
      (⟨⟨some 2, some Json.objNil, [], true, some ⟨2, "Old", Json.objNil, 0⟩, some "2"⟩,
          ⟨[⟨2, "Old", Json.objNil, 0⟩], 3⟩, ⟨[]⟩, ⟨[]⟩⟩ : World).store.update 2
        ⟨some "New", none⟩ 1 ∧
    (handleSaveWithName
        ⟨⟨some 2, some Json.objNil, [], true, some ⟨2, "Old", Json.objNil, 0⟩, some "2"⟩,
          ⟨[⟨2, "Old", Json.objNil, 0⟩], 3⟩, ⟨[]⟩, ⟨[]⟩⟩
        (some ⟨2, "Old", Json.objNil, 0⟩) "New" true true 1).builder =
      (⟨⟨some 2, some Json.objNil, [], true, some ⟨2, "Old", Json.objNil, 0⟩, some "2"⟩,
          ⟨[⟨2, "Old", Json.objNil, 0⟩], 3⟩, ⟨[]⟩, ⟨[]⟩⟩ : World).builder ∧
    (∀ id : Int,
      ((handleSaveWithName
          ⟨⟨some 2, some Json.objNil, [], true, some ⟨2, "Old", Json.objNil, 0⟩, some "2"⟩,
            ⟨[⟨2, "Old", Json.objNil, 0⟩], 3⟩, ⟨[]⟩, ⟨[]⟩⟩
          (some ⟨2, "Old", Json.objNil, 0⟩) "New" true true 1).store.get id).map
        ResumeRec.resume_json =
        ((⟨⟨some 2, some Json.objNil, [], true, some ⟨2, "Old", Json.objNil, 0⟩, some "2"⟩,
            ⟨[⟨2, "Old", Json.objNil, 0⟩], 3⟩, ⟨[]⟩, ⟨[]⟩⟩ : World).store.get id).map
          ResumeRec.resume_json) ∧
    isEdited (handleSaveWithName
        ⟨⟨some 2, some Json.objNil, [], true, some ⟨2, "Old", Json.objNil, 0⟩, some "2"⟩,
          ⟨[⟨2, "Old", Json.objNil, 0⟩], 3⟩, ⟨[]⟩, ⟨[]⟩⟩
        (some ⟨2, "Old", Json.objNil, 0⟩) "New" true true 1).builder =
      isEdited (⟨⟨some 2, some Json.objNil, [], true, some ⟨2, "Old", Json.objNil, 0⟩, some "2"⟩,
          ⟨[⟨2, "Old", Json.objNil, 0⟩], 3⟩, ⟨[]⟩, ⟨[]⟩⟩ : World).builder ∧
    (∀ d : Option ResumeRec,
      d.map ResumeRec.resume_json =
        (⟨⟨some 2, some Json.objNil, [], true, some ⟨2, "Old", Json.objNil, 0⟩, some "2"⟩,
            ⟨[⟨2, "Old", Json.objNil, 0⟩], 3⟩, ⟨[]⟩, ⟨[]⟩⟩ :
          World).builder.selectedResumeData.map ResumeRec.resume_json →
      isEdited { (⟨⟨some 2, some Json.objNil, [], true, some ⟨2, "Old", Json.objNil, 0⟩, some "2"⟩,
          ⟨[⟨2, "Old", Json.objNil, 0⟩], 3⟩, ⟨[]⟩, ⟨[]⟩⟩ :
        World).builder with selectedResumeData := d } =
        isEdited (⟨⟨some 2, some Json.objNil, [], true, some ⟨2, "Old", Json.objNil, 0⟩, some "2"⟩,
            ⟨[⟨2, "Old", Json.objNil, 0⟩], 3⟩, ⟨[]⟩, ⟨[]⟩⟩ : World).builder) :=
  rename_patches_only_name
    ⟨⟨some 2, some Json.objNil, [], true, some ⟨2, "Old", Json.objNil, 0⟩, some "2"⟩,
      ⟨[⟨2, "Old", Json.objNil, 0⟩], 3⟩, ⟨[]⟩, ⟨[]⟩⟩
    ⟨2, "Old", Json.objNil, 0⟩ "New" 1 (by decide)

/-! ### Claim C8 -/

/-- The sort comparator is total. -/
theorem resumeCompare_total (dId : Option Int) (a b : ResumeRec) :
    resumeCompare dId a b ≤ 0 ∨ resumeCompare dId b a ≤ 0 := by
  unfold resumeCompare
  split_ifs <;> omega

/-- The sort comparator is transitive. -/
theorem resumeCompare_trans (dId : Option Int) (a b c : ResumeRec)
    (h₁ : resumeCompare dId a b ≤ 0) (h₂ : resumeCompare dId b c ≤ 0) :
    resumeCompare dId a c ≤ 0 := by
  unfold resumeCompare at h₁ h₂ ⊢
  split_ifs at h₁ h₂ ⊢ <;> omega

/-- sortedResumes puts the (unique) resume carrying the default id first and
orders any two non-default resumes by updatedAt descending. -/
theorem sortedResumes_order (dId : Option Int) (resumes : List ResumeRec)
    (rdef A B : ResumeRec)
    (hdef_mem : rdef ∈ resumes)
    (hdef : dId = some rdef.id)
    (huniq : ∀ x ∈ resumes, x.id = rdef.id → x = rdef)
    (hAd : dId ≠ some A.id) (hBd : dId ≠ some B.id)
    (hdate : A.updatedAt < B.updatedAt) :
    (sortedResumes dId resumes).head? = some rdef ∧
    ∀ (i j : Fin (sortedResumes dId resumes).length),
      (sortedResumes dId resumes).get i = A →
      (sortedResumes dId resumes).get j = B → j < i := by
  haveI inst1 : IsTotal ResumeRec (fun a b => resumeCompare dId a b ≤ 0) :=
    ⟨fun a b => resumeCompare_total dId a b⟩
  haveI inst2 : IsTrans ResumeRec (fun a b => resumeCompare dId a b ≤ 0) :=
    ⟨fun a b c => resumeCompare_trans dId a b c⟩
  have hsorted : List.Sorted (fun a b => resumeCompare dId a b ≤ 0)
      (sortedResumes dId resumes) :=
    List.sorted_insertionSort (fun a b => resumeCompare dId a b ≤ 0) resumes
  constructor
  · have hmem : rdef ∈ sortedResumes dId resumes := by
      unfold sortedResumes
      rw [List.mem_insertionSort]
      exact hdef_mem
    rcases hsr : sortedResumes dId resumes with _ | ⟨hd, tl⟩
    · rw [hsr] at hmem
      cases hmem
    · have hhd_mem : hd ∈ resumes := by
        have h2 : hd ∈ sortedResumes dId resumes := by
          rw [hsr]
          exact List.mem_cons_self hd tl
        unfold sortedResumes at h2
        rwa [List.mem_insertionSort] at h2
      by_cases heq : hd = rdef
      · rw [heq]
        rfl
      · exfalso
        have hrdef_tl : rdef ∈ tl := by
          rw [hsr] at hmem
          rcases List.mem_cons.mp hmem with h | h
          · exact absurd h.symm heq
          · exact h
        have hrel : resumeCompare dId hd rdef ≤ 0 := by
          have hs2 := hsorted
          rw [hsr] at hs2
          exact List.rel_of_sorted_cons hs2 rdef hrdef_tl
        have hne : ¬ dId = some hd.id := by
          intro hbad
          have hid2 : rdef.id = hd.id := by
            have := hdef.symm.trans hbad
            injection this
          exact heq (huniq hd hhd_mem hid2.symm)
        unfold resumeCompare at hrel
        rw [if_neg hne, if_pos hdef] at hrel
        omega
  · intro i j hiA hjB
    rcases lt_trichotomy i j with hij | hij | hij
    · exfalso
      have hrel := List.Sorted.rel_get_of_lt hsorted hij
      rw [hiA, hjB] at hrel
      unfold resumeCompare at hrel
      rw [if_neg hAd, if_neg hBd] at hrel
      omega
    · exfalso
      rw [hij] at hiA
      rw [hiA] at hjB
      rw [hjB] at hdate
      exact lt_irrefl _ hdate
    · exact hij

/-- Claim C8: with the default id parsed from the DefaultPointer setting as
ResumeList does, the presented list places the resume the pointer refers to
first, and any non-default resume with a newer updatedAt before any
non-default one with an older updatedAt. -/
theorem resumeList_default_first_then_recent (dv : Option String)
    (resumes : List ResumeRec) (rdef A B : ResumeRec)
    (hdef_mem : rdef ∈ resumes)
    (hdef : parsedSettingId dv = some rdef.id)
    (huniq : ∀ x ∈ resumes, x.id = rdef.id → x = rdef)
    (hAd : parsedSettingId dv ≠ some A.id)
    (hBd : parsedSettingId dv ≠ some B.id)
    (hdate : A.updatedAt < B.updatedAt) :
    (sortedResumes (parsedSettingId dv) resumes).head? = some rdef ∧
    ∀ (i j : Fin (sortedResumes (parsedSettingId dv) resumes).length),
      (sortedResumes (parsedSettingId dv) resumes).get i = A →
      (sortedResumes (parsedSettingId dv) resumes).get j = B → j < i :=
  sortedResumes_order (parsedSettingId dv) resumes rdef A B hdef_mem hdef huniq
    hAd hBd hdate

/-- Claim C8 witness: default resume id 1 (oldest), non-default resumes with
ids 2 (older) and 3 (newer). -/
theorem resumeList_default_first_then_recent_witness :
    (sortedResumes (parsedSettingId (some "1"))
        [⟨1, "D", Json.objNil, 5⟩, ⟨2, "A", Json.objNil, 10⟩,
          ⟨3, "B", Json.objNil, 20⟩]).head? = some ⟨1, "D", Json.objNil, 5⟩ ∧
    ∀ (i j : Fin (sortedResumes (parsedSettingId (some "1"))
        [⟨1, "D", Json.objNil, 5⟩, ⟨2, "A", Json.objNil, 10⟩,
          ⟨3, "B", Json.objNil, 20⟩]).length),
      (sortedResumes (parsedSettingId (some "1"))
        [⟨1, "D", Json.objNil, 5⟩, ⟨2, "A", Json.objNil, 10⟩,
          ⟨3, "B", Json.objNil, 20⟩]).get i = ⟨2, "A", Json.objNil, 10⟩ →
      (sortedResumes (parsedSettingId (some "1"))
        [⟨1, "D", Json.objNil, 5⟩, ⟨2, "A", Json.objNil, 10⟩,
          ⟨3, "B", Json.objNil, 20⟩]).get j = ⟨3, "B", Json.objNil, 20⟩ → j < i :=
  resumeList_default_first_then_recent (some "1")
    [⟨1, "D", Json.objNil, 5⟩, ⟨2, "A", Json.objNil, 10⟩, ⟨3, "B", Json.objNil, 20⟩]
    ⟨1, "D", Json.objNil, 5⟩ ⟨2, "A", Json.objNil, 10⟩ ⟨3, "B", Json.objNil, 20⟩
    (by decide) (by decide) (by decide) (by decide) (by decide) (by decide)

end Seekr
